import Mathlib

/-!
Shallow embedding of `ilpedante_mirror/bulk_download.py`, a blog-mirroring
script: pagination over a listing endpoint (`page_generator`), listing
extraction (`parse_link`), post extraction and Markdown conversion
(`parse_post`) and the orchestrating pipeline (`main`).

HTML documents are modelled as node trees (the parsed form produced by the
BeautifulSoup library); the HTTP layer is a function from URL to an optional
byte content (`none` models a raised `requests.exceptions.RequestException`),
and the HTML parser is a function from bytes to a node forest.  Python
exceptions are modelled with `Except PyError`.
-/

namespace IlPedante

mutual

/-- An HTML node as exposed by the BeautifulSoup API: a tag with a name, an
attribute association list and children, or a text node. -/
inductive Node where
| tag (name : String) (attrs : List (String × String)) (children : NodeList)
| text (s : String)

/-- A sequence of sibling HTML nodes (the children of a tag, or the top level
of a parsed document). -/
inductive NodeList where
| nil
| cons (n : Node) (rest : NodeList)

end

/-- A parsed document (what `BeautifulSoup(...)` returns): a forest of
top-level nodes. -/
abbrev Soup := NodeList

/-- Children list of zero nodes. -/
def nl0 : NodeList := .nil

/-- Children list of one node. -/
def nl1 (a : Node) : NodeList := .cons a .nil

/-- Children list of two nodes. -/
def nl2 (a b : Node) : NodeList := .cons a (.cons b .nil)

/-- Children list of three nodes. -/
def nl3 (a b c : Node) : NodeList := .cons a (.cons b (.cons c .nil))

mutual

/-- Descendants of a node in document (preorder) order. -/
def Node.desc : Node → List Node
| .text _ => []
| .tag _ _ cs => NodeList.desc cs

/-- All nodes of a forest in document (preorder) order: each node followed by
its descendants.  `BeautifulSoup.find_all` traverses in this order. -/
def NodeList.desc : NodeList → List Node
| .nil => []
| .cons n rest => n :: (Node.desc n ++ NodeList.desc rest)

end

mutual

/-- The `.text` property of a node: all contained text, concatenated in
document order. -/
def Node.textContent : Node → String
| .text s => s
| .tag _ _ cs => NodeList.textContent cs

/-- Concatenated text of a forest, in document order. -/
def NodeList.textContent : NodeList → String
| .nil => ""
| .cons n rest => Node.textContent n ++ NodeList.textContent rest

end

/-- Attribute rendering for the pretty-printer: ` key="value"` pairs. -/
def renderAttrs : List (String × String) → String
| [] => ""
| (k, v) :: rest => " " ++ k ++ "=\x22" ++ v ++ "\x22" ++ renderAttrs rest

mutual

/-- Library model of BeautifulSoup `Tag.prettify()`: renders the tag, its
attributes and its whole subtree back to markup (whitespace layout elided). -/
def Node.prettify : Node → String
| .text s => s
| .tag n as cs => "<" ++ n ++ renderAttrs as ++ ">" ++ NodeList.prettify cs ++ "</" ++ n ++ ">"

/-- Rendering of a forest of nodes, in order. -/
def NodeList.prettify : NodeList → String
| .nil => ""
| .cons n rest => Node.prettify n ++ NodeList.prettify rest

end

/-- Attribute lookup (`tag.get(key)` / `tag[key]` access). -/
def Node.attr : Node → String → Option String
| .tag _ as _, k => as.lookup k
| .text _, _ => none

/-- Whether a node is a tag (text nodes match no tag filter). -/
def isTagNode : Node → Bool
| .tag _ _ _ => true
| .text _ => false

/-- Whether a node is a tag with the given name. -/
def matchesTag (n : Node) (name : String) : Bool :=
  match n with
  | .tag nm _ _ => nm == name
  | .text _ => false

/-- Split a character list into whitespace-separated words (accumulator holds
the current word, reversed). -/
def wordsAux : List Char → List Char → List String
| [], cur => if cur.isEmpty then [] else [String.mk cur.reverse]
| c :: rest, cur =>
  if c.isWhitespace then
    (if cur.isEmpty then wordsAux rest [] else String.mk cur.reverse :: wordsAux rest [])
  else wordsAux rest (c :: cur)

/-- The whitespace-separated class names of a `class` attribute value. -/
def classNames (s : String) : List String := wordsAux s.toList []

/-- BeautifulSoup `class_=c` matching: `c` is one of the node's classes. -/
def hasClass (n : Node) (c : String) : Bool :=
  match Node.attr n "class" with
  | some s => (classNames s).contains c
  | none => false

/-- Python `str.strip()` on the character-list view of a string. -/
def trimChars (s : String) : String :=
  String.mk (((s.toList.dropWhile Char.isWhitespace).reverse.dropWhile Char.isWhitespace).reverse)

/-- `soup.find_all(pred)`: every node of the document matching `pred`, in
document order. -/
def findAllNodes (s : Soup) (p : Node → Bool) : List Node :=
  (NodeList.desc s).filter p

/-- `soup.find(pred)`: the first match of `find_all`, if any. -/
def findNode (s : Soup) (p : Node → Bool) : Option Node :=
  (findAllNodes s p).head?

/-- `element.find(pred)`: first matching descendant of an element (the
element itself is not considered). -/
def Node.findIn : Node → (Node → Bool) → Option Node
| .text _, _ => none
| .tag _ _ cs, p => ((NodeList.desc cs).filter p).head?

/-- `len(soup.find_all(True))`: the number of tags in the document. -/
def numberOfTags (s : Soup) : Nat :=
  (NodeList.desc s).countP isTagNode

/-- `find_all("article", class_="articoli-item")` filter. -/
def isArticleItem (n : Node) : Bool :=
  matchesTag n "article" && hasClass n "articoli-item"

/-- `find("h1", class_="titolo")` filter. -/
def isTitolo (n : Node) : Bool :=
  matchesTag n "h1" && hasClass n "titolo"

/-- `find("meta", itemprop=p)` filter. -/
def isMetaProp (p : String) (n : Node) : Bool :=
  matchesTag n "meta" && (Node.attr n "itemprop" == some p)

/-- `find("div", itemprop="articleBody")` filter. -/
def isArticleBody (n : Node) : Bool :=
  matchesTag n "div" && (Node.attr n "itemprop" == some "articleBody")

/-- A cell value of the DataFrame: a string, a parsed timestamp
(`pd.to_datetime` result, carrying its source text), raw response bytes, a
parsed document, or Python `None`/`NaT`. -/
inductive Value where
| str (s : String)
| datetime (s : String)
| bytes (b : List Nat)
| soup (s : Soup)
| null

/-- A DataFrame row / Python dict: an ordered association list from column
names to values. -/
abbrev Row := List (String × Value)

/-- The column names of a row, in order. -/
def keys (r : Row) : List String := r.map Prod.fst

/-- The Python exceptions the script can raise. -/
inductive PyError where
| attributeError
/-- `KeyError` (missing column). -/
| keyError
/-- `ValueError` (e.g. `pd.concat` of no objects). -/
| valueError
/-- `requests.exceptions.RequestException` and subclasses. -/
| requestsError
deriving Repr, DecidableEq

/-- `row[k]`: value of a column, `KeyError` when absent. -/
def getItem (row : Row) (k : String) : Except PyError Value :=
  match List.lookup k row with
  | some v => .ok v
  | none => .error .keyError

/-- `row[k] = v`: replace the value of an existing column in place, or append
a new column at the end. -/
def setItem : Row → String → Value → Row
| [], k, v => [(k, v)]
| (k', v') :: rest, k, v =>
  if k' = k then (k, v) :: rest else (k', v') :: setItem rest k v

/-- The value of a column, `Value.null` when the column is absent (never hit
on the pipeline's rows). -/
def valueAt (r : Row) (k : String) : Value := (List.lookup k r).getD .null

/-- A `None` check failing as Python attribute access does: calling a method
on the `None` returned by a failed `find` raises `AttributeError`. -/
def expectAttr {α : Type} : Option α → Except PyError α
| some a => .ok a
| none => .error .attributeError

/-- The row value must be a parsed document to call `find`/`find_all` on it;
anything else fails like attribute access on a non-soup object. -/
def expectSoup : Value → Except PyError Soup
| .soup s => .ok s
| _ => .error .attributeError

/-- `tag.get(key)` as a cell value: the attribute string, or `None`. -/
def optValue : Option String → Value
| some s => .str s
| none => .null

/-- Library model of `pd.to_datetime` on one cell: a string parses to a
timestamp (kept with its source text), `None` becomes `NaT` (modelled as
`null`). -/
def to_datetime : Value → Value
| .str s => .datetime s
| .null => .null
| v => v

/-- Sequential `Except`-valued map, the effect of a list comprehension or a
row-wise `apply` that stops at the first raised exception. -/
def exceptMap {α β : Type} (f : α → Except PyError β) : List α → Except PyError (List β)
| [] => .ok []
| x :: xs =>
  match f x with
  | .error e => .error e
  | .ok y =>
    match exceptMap f xs with
    | .error e => .error e
    | .ok ys => .ok (y :: ys)

/-- One post-preview record of `parse_link`'s comprehension:
`{"url": item.find("h1", class_="titolo").a.get("href"), "title": ..., "author": ..., "date": ...}`.
A `find` that returns `None` makes the following attribute access raise
`AttributeError`; a present tag with a missing attribute yields `None`
silently via `.get`. -/
def buildPreviewRecord (item : Node) : Except PyError Row :=
  match Node.findIn item isTitolo with
  | none => .error .attributeError
  | some h1 =>
    match Node.findIn h1 (fun n => matchesTag n "a") with
    | none => .error .attributeError
    | some a =>
      let url := optValue (Node.attr a "href")
      let title := trimChars (Node.textContent h1)
      match Node.findIn item (isMetaProp "author") with
      | none => .error .attributeError
      | some am =>
        let author := optValue (Node.attr am "content")
        match Node.findIn item (isMetaProp "datePublished") with
        | none => .error .attributeError
        | some dm =>
          let date := optValue (Node.attr dm "content")
          .ok [("url", url), ("title", .str title), ("author", author), ("date", date)]

/-- `parse_link(row)`: extract all post previews of one listing page into
records, then `df["date"] = pd.to_datetime(df["date"])`.  On a page with no
previews `pd.DataFrame.from_records([])` has no columns at all and the read
of `df["date"]` raises `KeyError`. -/
def parse_link (row : Row) : Except PyError (List Row) :=
  match getItem row "soup" with
  | .error e => .error e
  | .ok v =>
    match expectSoup v with
    | .error e => .error e
    | .ok s =>
      match exceptMap buildPreviewRecord (findAllNodes s isArticleItem) with
      | .error e => .error e
      | .ok posts =>
        if posts.isEmpty then .error .keyError
        else .ok (posts.map (fun r => setItem r "date" (to_datetime (valueAt r "date"))))

/-- Library model of `markdownify` applied to the prettified article: Markdown
conversion preserves exactly the visible text of the fragment (markup is
dropped, text content is kept). -/
def markdownify (article : Node) : String := Node.textContent article

/-- `parse_post(row)`: find the article body
(`row["soup"].find("div", itemprop="articleBody")`), store its prettified
markup in `row["post"]` and its Markdown conversion in
`row["post_markdown"]`.  When no body container exists, `article` is `None`
and `article.prettify()` raises `AttributeError`. -/
def parse_post (row : Row) : Except PyError Row :=
  match getItem row "soup" with
  | .error e => .error e
  | .ok v =>
    match expectSoup v with
    | .error e => .error e
    | .ok s =>
      match findNode s isArticleBody with
      | none => .error .attributeError
      | some article =>
        let post := Node.prettify article
        .ok (setItem (setItem row "post" (.str post)) "post_markdown" (.str (markdownify article)))

/-- Decimal digits of a natural number (fuel-indexed, fuel ≥ 1 suffices). -/
def natDigitsAux : Nat → Nat → List Char → List Char
| 0, _, acc => acc
| fuel + 1, n, acc =>
  let acc' := Char.ofNat (48 + n % 10) :: acc
  if n / 10 = 0 then acc' else natDigitsAux fuel (n / 10) acc'

/-- Decimal rendering of a natural number. -/
def natToStr (n : Nat) : String := String.mk (natDigitsAux (n + 1) n [])

/-- `page_url(root_url, i)`: the f-string `f"{root_url}/{i}"`. -/
def page_url (root_url : String) (i : Nat) : String :=
  root_url ++ "/" ++ natToStr i

/-- The loop-exit condition of `page_generator` at page `i`: the fetch raises
(`none`), the raw content is empty, or the parsed page has exactly one tag. -/
def pgStop (root_url : String) (fetch : String → Option (List Nat))
    (parse : List Nat → Soup) (i : Nat) : Bool :=
  match fetch (page_url root_url i) with
  | none => true
  | some content => content.isEmpty || numberOfTags (parse content) == 1

/-- The body of `page_generator`'s `while True` loop, starting at page number
`page` with `fuel` remaining iterations (the fuel only cuts off runs in which
no exit condition ever holds; see the termination lemmas). -/
def page_generatorAux (root_url : String) (fetch : String → Option (List Nat))
    (parse : List Nat → Soup) : Nat → Nat → List Soup
| _, 0 => []
| page, fuel + 1 =>
  match fetch (page_url root_url page) with
  | none => []
  | some content =>
    if content.isEmpty then []
    else
      let soup := parse content
      if numberOfTags soup == 1 then []
      else soup :: page_generatorAux root_url fetch parse (page + 1) fuel

/-- `page_generator(root_url)`: fetch pages `root_url/1`, `root_url/2`, ...
yielding each parsed page, and stop silently at the first fetch failure
(`requests.exceptions.RequestException` is caught), empty content, or
degenerate single-tag page. -/
def page_generator (root_url : String) (fetch : String → Option (List Nat))
    (parse : List Nat → Soup) (fuel : Nat) : List Soup :=
  page_generatorAux root_url fetch parse 1 fuel

/-- The persisted result of a successful run: the path handed to
`df.to_csv` and the rows of the written table. -/
structure Output where
  path : String
  rows : List Row

/-- Phase 1 of `main`: drain the page generator, run `parse_link` over the
one-column frame `pd.DataFrame({"soup": soups})` row by row, and concatenate
the per-page frames (`pd.concat` of an empty list raises `ValueError`). -/
def collect_listings (root_url : String) (fetch : String → Option (List Nat))
    (parse : List Nat → Soup) (fuel : Nat) : Except PyError (List Row) :=
  match exceptMap (fun s => parse_link [("soup", Value.soup s)])
      (page_generator root_url fetch parse fuel) with
  | .error e => .error e
  | .ok dfs =>
    if dfs.isEmpty then .error .valueError
    else .ok dfs.flatten

/-- Phase 2 of `main`:
`df["html"] = df["url"].progress_apply(lambda x: requests.get(x).content)`.
One fetch per row, in order; the returned trace lists the URLs actually
requested.  A raised `RequestException` (or `requests.get` on a non-string
URL) is not caught and aborts the phase. -/
def fetch_posts (fetch : String → Option (List Nat)) :
    List Row → Except PyError (List Row × List String)
| [] => .ok ([], [])
| r :: rest =>
  match valueAt r "url" with
  | .str u =>
    match fetch u with
    | none => .error .requestsError
    | some b =>
      match fetch_posts fetch rest with
      | .error e => .error e
      | .ok (rs, trace) => .ok (setItem r "html" (.bytes b) :: rs, u :: trace)
  | _ => .error .requestsError

/-- `df["soup"] = df["html"].apply(BeautifulSoup, features="html.parser")`:
parse each fetched body; the column always holds bytes on the pipeline's
rows. -/
def add_soups (parse : List Nat → Soup) (rows : List Row) : Except PyError (List Row) :=
  exceptMap (fun r =>
    match valueAt r "html" with
    | .bytes b => .ok (setItem r "soup" (.soup (parse b)))
    | _ => .error .attributeError) rows

/-- `main(root_url)`: collect the listing records, fetch every post, parse
each body, enrich every row via `parse_post`, and write the table to
`_posts/posts.csv.gz`.  Any uncaught exception aborts the run before the
output file is written. -/
def main (root_url : String) (fetch : String → Option (List Nat))
    (parse : List Nat → Soup) (fuel : Nat) : Except PyError Output :=
  match collect_listings root_url fetch parse fuel with
  | .error e => .error e
  | .ok records =>
    match fetch_posts fetch records with
    | .error e => .error e
    | .ok (withHtml, _) =>
      match add_soups parse withHtml with
      | .error e => .error e
      | .ok withSoup =>
        match exceptMap parse_post withSoup with
        | .error e => .error e
        | .ok enriched => .ok { path := "_posts/posts.csv.gz", rows := enriched }

/-! Concrete fixtures: a one-post blog used to evaluate the pipeline on a
closed input. -/

/-- Root URL of the fixture blog. -/
def demoRoot : String := "https://blog"

/-- A valid post preview on the fixture listing page. -/
def demoItem : Node :=
  .tag "article" [("class", "articoli-item")] (nl3
    (.tag "h1" [("class", "titolo")]
      (nl1 (.tag "a" [("href", "https://post1")] (nl1 (.text "Title One")))))
    (.tag "meta" [("itemprop", "author"), ("content", "Author")] nl0)
    (.tag "meta" [("itemprop", "datePublished"), ("content", "2020-01-12")] nl0))

/-- The fixture listing page: one preview (five tags, so not degenerate). -/
def demoListing : Soup := nl1 demoItem

/-- The article body of the fixture post: a paragraph and an embedded share
widget. -/
def demoArticle : Node :=
  .tag "div" [("itemprop", "articleBody")] (nl2
    (.tag "p" [] (nl1 (.text "Hello")))
    (.tag "div" [("class", "share")] (nl1 (.text "SHARE"))))

/-- The fixture post page: an article body with a paragraph and an embedded
share widget. -/
def demoPost : Soup := nl1 demoArticle

/-- The fixture HTTP layer: listing page 1 has content `[1]`, listing page 2
is empty (end of pagination), the single post URL has content `[2]`; every
other URL fails. -/
def demoFetch : String → Option (List Nat) := fun u =>
  if u = "https://blog/1" then some [1]
  else if u = "https://blog/2" then some []
  else if u = "https://post1" then some [2]
  else none

/-- The fixture parser: content `[1]` is the listing page, `[2]` the post
page. -/
def demoParse : List Nat → Soup := fun b =>
  if b = [1] then demoListing
  else if b = [2] then demoPost
  else NodeList.nil

/-- The fixture pipeline run. -/
def demoMain : Except PyError Output := main demoRoot demoFetch demoParse 6

/-- The records discovered during the fixture run's pagination phase. -/
def demoRecords : List Row :=
  match collect_listings demoRoot demoFetch demoParse 6 with
  | .ok records => records
  | .error _ => []

/-- The column lists of the rows of a run's output (empty on a failed run). -/
def outputColumns : Except PyError Output → List (List String)
| .ok out => out.rows.map keys
| .error _ => []

/-- The output of the fixture run (the run succeeds; the fallback is dead). -/
def demoOut : Output :=
  match demoMain with
  | .ok o => o
  | .error _ => { path := "", rows := [] }

/-- A fetch layer whose very first listing page is empty: pagination stops at
page 1. -/
def emptyFirstFetch : String → Option (List Nat) := fun u =>
  if u = "https://blog/1" then some [] else none

/-- A fetch layer for which listing page 1 succeeds and the fetch of listing
page 2 raises. -/
def failingSecondFetch : String → Option (List Nat) := fun u =>
  if u = "https://blog/1" then some [1] else none

/-- A fetch layer for which every page fetch succeeds with a non-degenerate
listing page. -/
def alwaysGoodFetch : String → Option (List Nat) := fun _ => some [1]

/-- A listing item whose anchor exists but carries no `href` attribute: every
element `parse_link` dereferences is present, only the attribute is missing. -/
def hreflessItem : Node :=
  .tag "article" [("class", "articoli-item")] (nl3
    (.tag "h1" [("class", "titolo")] (nl1 (.tag "a" [] (nl1 (.text "Title One")))))
    (.tag "meta" [("itemprop", "author"), ("content", "A")] nl0)
    (.tag "meta" [("itemprop", "datePublished"), ("content", "2020-01-12")] nl0))

/-- An article body whose only content is an embedded share widget. -/
def shareOnlyArticle : Node :=
  .tag "div" [("itemprop", "articleBody")]
    (nl1 (.tag "div" [("class", "share")] (nl1 (.text "CONDIVIDI"))))

/-- A row holding a post document whose body is only a share widget. -/
def shareOnlyRow : Row := [("soup", Value.soup (nl1 shareOnlyArticle))]

/-- A post page with no `div[itemprop=articleBody]` container. -/
def noBodySoup : Soup := nl1 (.tag "p" [] (nl1 (.text "no article here")))

/-- The listing pages a run of `page_generator` is expected to yield when
pages `i, i+1, ..., i+n-1` are all fetched and parsed: the parse of each
page's content, in page order. -/
def expectedPages (root_url : String) (fetch : String → Option (List Nat))
    (parse : List Nat → Soup) (i : Nat) : Nat → List Soup
| 0 => []
| n + 1 => parse ((fetch (page_url root_url i)).getD []) ::
    expectedPages root_url fetch parse (i + 1) n

/-- A run of `page_generator` that never meets an exit condition yields one
page per unit of fuel: the loop does not terminate on its own. -/
def pgRunsForever (root_url : String) (fetch : String → Option (List Nat))
    (parse : List Nat → Soup) : Prop :=
  ∀ fuel, (page_generator root_url fetch parse fuel).length = fuel

/-- A listing item valid in the sense of the specification: it has an
`h1.titolo` title with a non-empty hyperlinked URL and non-empty text, and
author and publication-date meta tags carrying content. -/
def validPreview (item : Node) : Bool :=
  match Node.findIn item isTitolo with
  | none => false
  | some h1 =>
    (match Node.findIn h1 (fun n => matchesTag n "a") with
     | none => false
     | some a =>
       match Node.attr a "href" with
       | none => false
       | some u => u != "")
    && (trimChars (Node.textContent h1) != "")
    && (match Node.findIn item (isMetaProp "author") with
        | none => false
        | some m => (Node.attr m "content").isSome)
    && (match Node.findIn item (isMetaProp "datePublished") with
        | none => false
        | some m => (Node.attr m "content").isSome)

/-! ### Association-list and `exceptMap` lemmas -/

theorem lookup_setItem_self (r : Row) (k : String) (v : Value) :
    List.lookup k (setItem r k v) = some v := by
  induction r with
  | nil => simp [setItem, List.lookup]
  | cons p rest ih =>
    obtain ⟨k', v'⟩ := p
    by_cases h : k' = k
    · subst h; simp [setItem, List.lookup]
    · have hb : (k == k') = false := by
        simp [Ne.symm h]
      simp [setItem, h, List.lookup, hb, ih]

theorem lookup_setItem_ne (r : Row) {k k' : String} (v : Value) (h : k' ≠ k) :
    List.lookup k (setItem r k' v) = List.lookup k r := by
  have hb : (k == k') = false := by
    simp [Ne.symm h]
  induction r with
  | nil => simp [setItem, List.lookup, hb]
  | cons p rest ih =>
    obtain ⟨k'', v''⟩ := p
    by_cases h2 : k'' = k'
    · subst h2
      simp [setItem, List.lookup, hb]
    · simp only [setItem, if_neg h2, List.lookup, ih]

theorem keys_setItem_mem (r : Row) {k : String} (v : Value) (h : k ∈ keys r) :
    keys (setItem r k v) = keys r := by
  induction r with
  | nil => simp [keys] at h
  | cons p rest ih =>
    obtain ⟨k', v'⟩ := p
    by_cases h2 : k' = k
    · subst h2; simp [setItem, keys]
    · have hcons : keys ((k', v') :: rest) = k' :: keys rest := rfl
      rw [hcons] at h
      have hk : k ∈ keys rest := by
        rcases List.mem_cons.mp h with h3 | h3
        · exact absurd h3.symm h2
        · exact h3
      have hstep : keys (setItem ((k', v') :: rest) k v) =
          k' :: keys (setItem rest k v) := by
        simp [setItem, h2, keys]
      rw [hstep, hcons, ih hk]

theorem setItem_not_mem (r : Row) {k : String} (v : Value) (h : k ∉ keys r) :
    setItem r k v = r ++ [(k, v)] := by
  induction r with
  | nil => simp [setItem]
  | cons p rest ih =>
    obtain ⟨k', v'⟩ := p
    have h' : ¬(k = k' ∨ k ∈ keys rest) := by
      intro h1
      apply h
      rcases h1 with h1 | h1
      · simp [keys, h1]
      · simpa [keys] using Or.inr h1
    rw [not_or] at h'
    simp [setItem, Ne.symm h'.1, ih h'.2]

theorem keys_setItem_not_mem (r : Row) {k : String} (v : Value) (h : k ∉ keys r) :
    keys (setItem r k v) = keys r ++ [k] := by
  simp [setItem_not_mem r v h, keys]

theorem exceptMap_ok_forall₂ {α β : Type} (f : α → Except PyError β) :
    ∀ (l : List α) (l' : List β), exceptMap f l = .ok l' →
      List.Forall₂ (fun x y => f x = .ok y) l l' := by
  intro l
  induction l with
  | nil => intro l' h; simp [exceptMap] at h; simp [← h]
  | cons x xs ih =>
    intro l' h
    simp only [exceptMap] at h
    cases hfx : f x with
    | error e => rw [hfx] at h; simp at h
    | ok y =>
      rw [hfx] at h
      cases hrest : exceptMap f xs with
      | error e => rw [hrest] at h; simp at h
      | ok ys =>
        rw [hrest] at h
        simp at h
        subst h
        exact List.Forall₂.cons hfx (ih ys hrest)

theorem exceptMap_ok_of_forall {α β : Type} (f : α → Except PyError β) :
    ∀ (l : List α), (∀ x ∈ l, ∃ y, f x = .ok y) →
      ∃ l', exceptMap f l = .ok l' := by
  intro l
  induction l with
  | nil => intro _; exact ⟨[], rfl⟩
  | cons x xs ih =>
    intro h
    obtain ⟨y, hy⟩ := h x (by simp)
    obtain ⟨ys, hys⟩ := ih (fun z hz => h z (by simp [hz]))
    exact ⟨y :: ys, by simp [exceptMap, hy, hys]⟩

theorem forall₂_mem_right {α β : Type} {R : α → β → Prop} :
    ∀ {l : List α} {l' : List β}, List.Forall₂ R l l' →
      ∀ y ∈ l', ∃ x ∈ l, R x y := by
  intro l l' h
  induction h with
  | nil => intro y hy; simp at hy
  | cons hr _ ih =>
    intro y hy
    rcases List.mem_cons.mp hy with h1 | h2
    · exact ⟨_, by simp, h1 ▸ hr⟩
    · obtain ⟨x, hx, hxy⟩ := ih y h2
      exact ⟨x, by simp [hx], hxy⟩

theorem forall₂_map_eq {α β : Type} {γ : Type} (g : β → γ) (f : α → γ) :
    ∀ {l : List α} {l' : List β}, List.Forall₂ (fun x y => g y = f x) l l' →
      l'.map g = l.map f := by
  intro l l' h
  induction h with
  | nil => rfl
  | cons hr _ ih => simp [ih, hr]

/-! ### `page_generator` lemmas -/

theorem pgAux_stop (root_url : String) (fetch : String → Option (List Nat))
    (parse : List Nat → Soup) (i fuel : Nat)
    (h : pgStop root_url fetch parse i = true) :
    page_generatorAux root_url fetch parse i (fuel + 1) = [] := by
  unfold pgStop at h
  unfold page_generatorAux
  cases hf : fetch (page_url root_url i) with
  | none => simp
  | some c =>
    rw [hf] at h
    simp only [Bool.or_eq_true] at h
    rcases h with h | h
    · simp [h]
    · by_cases hc : c.isEmpty
      · simp [hc]
      · simp [hc, h]

theorem pgAux_cons (root_url : String) (fetch : String → Option (List Nat))
    (parse : List Nat → Soup) (i fuel : Nat)
    (h : pgStop root_url fetch parse i = false) :
    page_generatorAux root_url fetch parse i (fuel + 1) =
      parse ((fetch (page_url root_url i)).getD []) ::
        page_generatorAux root_url fetch parse (i + 1) fuel := by
  unfold pgStop at h
  conv_lhs => unfold page_generatorAux
  cases hf : fetch (page_url root_url i) with
  | none => rw [hf] at h; simp at h
  | some c =>
    rw [hf] at h
    simp only [Bool.or_eq_false_iff] at h
    simp [h.1, h.2]

theorem pgAux_expected (root_url : String) (fetch : String → Option (List Nat))
    (parse : List Nat → Soup) (k : Nat)
    (hstop : pgStop root_url fetch parse k = true) :
    ∀ fuel i, i ≤ k → (∀ j, i ≤ j → j < k → pgStop root_url fetch parse j = false) →
      k + 1 ≤ i + fuel →
      page_generatorAux root_url fetch parse i fuel =
        expectedPages root_url fetch parse i (k - i) := by
  intro fuel
  induction fuel with
  | zero => intro i hik _ hfuel; omega
  | succ fuel ih =>
    intro i hik hno hfuel
    by_cases hi : i = k
    · subst hi
      rw [pgAux_stop root_url fetch parse i fuel hstop]
      simp [expectedPages]
    · have hlt : i < k := lt_of_le_of_ne hik hi
      have hsi : pgStop root_url fetch parse i = false := hno i le_rfl hlt
      rw [pgAux_cons root_url fetch parse i fuel hsi]
      rw [ih (i + 1) hlt (fun j hj1 hj2 => hno j (by omega) hj2) (by omega)]
      have hk : k - i = (k - (i + 1)) + 1 := by omega
      rw [hk]
      rfl

theorem expectedPages_length (root_url : String) (fetch : String → Option (List Nat))
    (parse : List Nat → Soup) :
    ∀ (n i : Nat), (expectedPages root_url fetch parse i n).length = n := by
  intro n
  induction n with
  | zero => intro i; rfl
  | succ n ih => intro i; simp [expectedPages, ih]

theorem pgAux_stable (root_url : String) (fetch : String → Option (List Nat))
    (parse : List Nat → Soup) (k : Nat)
    (hstop : pgStop root_url fetch parse k = true) :
    ∀ fuel₁ fuel₂ i, i ≤ k → k + 1 ≤ i + fuel₁ → k + 1 ≤ i + fuel₂ →
      page_generatorAux root_url fetch parse i fuel₁ =
        page_generatorAux root_url fetch parse i fuel₂ := by
  intro fuel₁
  induction fuel₁ with
  | zero => intro fuel₂ i hik h1 _; omega
  | succ fuel₁ ih =>
    intro fuel₂ i hik h1 h2
    cases fuel₂ with
    | zero => omega
    | succ fuel₂ =>
      cases hsi : pgStop root_url fetch parse i with
      | true =>
        rw [pgAux_stop root_url fetch parse i fuel₁ hsi,
          pgAux_stop root_url fetch parse i fuel₂ hsi]
      | false =>
        have hi : i ≠ k := by
          intro h; rw [h] at hsi; rw [hsi] at hstop; exact Bool.false_ne_true hstop
        rw [pgAux_cons root_url fetch parse i fuel₁ hsi,
          pgAux_cons root_url fetch parse i fuel₂ hsi,
          ih fuel₂ (i + 1) (by omega) (by omega) (by omega)]

theorem pgAux_length_le (root_url : String) (fetch : String → Option (List Nat))
    (parse : List Nat → Soup) (k : Nat)
    (hstop : pgStop root_url fetch parse k = true) :
    ∀ fuel i, i ≤ k →
      (page_generatorAux root_url fetch parse i fuel).length ≤ k - i := by
  intro fuel
  induction fuel with
  | zero => intro i _; simp [page_generatorAux]
  | succ fuel ih =>
    intro i hik
    cases hsi : pgStop root_url fetch parse i with
    | true => rw [pgAux_stop root_url fetch parse i fuel hsi]; simp
    | false =>
      have hi : i ≠ k := by
        intro h; rw [h] at hsi; rw [hsi] at hstop; exact Bool.false_ne_true hstop
      rw [pgAux_cons root_url fetch parse i fuel hsi]
      have := ih (i + 1) (by omega)
      simp only [List.length_cons]
      omega

theorem pgAux_no_stop (root_url : String) (fetch : String → Option (List Nat))
    (parse : List Nat → Soup)
    (hno : ∀ j, pgStop root_url fetch parse j = false) :
    ∀ fuel i, (page_generatorAux root_url fetch parse i fuel).length = fuel := by
  intro fuel
  induction fuel with
  | zero => intro i; rfl
  | succ fuel ih =>
    intro i
    rw [pgAux_cons root_url fetch parse i fuel (hno i)]
    simp [ih]

/-! ### Extractor and pipeline lemmas -/

theorem findNode_some_pred (s : Soup) (p : Node → Bool) (n : Node)
    (h : findNode s p = some n) : p n = true := by
  unfold findNode findAllNodes at h
  have hm : n ∈ (NodeList.desc s).filter p := by
    cases hf : (NodeList.desc s).filter p with
    | nil => rw [hf] at h; simp at h
    | cons a rest =>
      rw [hf] at h
      simp at h
      exact List.mem_cons.mpr (Or.inl h.symm)
  exact (List.mem_filter.mp hm).2

theorem prettify_tag_nonempty (n : String) (as : List (String × String))
    (cs : NodeList) : Node.prettify (.tag n as cs) ≠ "" := by
  intro h
  have hlen := congrArg String.length h
  simp only [Node.prettify, String.length_append] at hlen
  have h1 : String.length "<" = 1 := rfl
  have h2 : String.length "" = 0 := rfl
  omega

theorem isArticleBody_tag (n : Node) (h : isArticleBody n = true) :
    ∃ as cs, n = .tag "div" as cs := by
  cases n with
  | text s => simp [isArticleBody, matchesTag] at h
  | tag nm as cs =>
    refine ⟨as, cs, ?_⟩
    simp only [isArticleBody, matchesTag, Bool.and_eq_true, beq_iff_eq] at h
    rw [h.1]

theorem buildPreviewRecord_ok_shape (item : Node) (r : Row)
    (h : buildPreviewRecord item = .ok r) :
    ∃ u t a d, r = [("url", u), ("title", Value.str t), ("author", a), ("date", d)] := by
  unfold buildPreviewRecord at h
  cases h1 : Node.findIn item isTitolo with
  | none => rw [h1] at h; simp at h
  | some h1n =>
    rw [h1] at h
    simp only [] at h
    cases h2 : Node.findIn h1n (fun n => matchesTag n "a") with
    | none => rw [h2] at h; simp at h
    | some a =>
      rw [h2] at h
      simp only [] at h
      cases h3 : Node.findIn item (isMetaProp "author") with
      | none => rw [h3] at h; simp at h
      | some am =>
        rw [h3] at h
        simp only [] at h
        cases h4 : Node.findIn item (isMetaProp "datePublished") with
        | none => rw [h4] at h; simp at h
        | some dm =>
          rw [h4] at h
          simp only [] at h
          simp at h
          exact ⟨_, _, _, _, h.symm⟩

theorem setItem_date_four (u : Value) (t : String) (a d v : Value) :
    setItem [("url", u), ("title", Value.str t), ("author", a), ("date", d)] "date" v =
      [("url", u), ("title", Value.str t), ("author", a), ("date", v)] := by
  rfl

theorem parse_link_ok_shape (row : Row) (recs : List Row)
    (h : parse_link row = .ok recs) :
    ∀ r ∈ recs, ∃ u t a d,
      r = [("url", u), ("title", Value.str t), ("author", a), ("date", d)] := by
  unfold parse_link at h
  cases h1 : getItem row "soup" with
  | error e => rw [h1] at h; simp at h
  | ok v =>
    rw [h1] at h
    simp only [] at h
    cases h2 : expectSoup v with
    | error e => rw [h2] at h; simp at h
    | ok s =>
      rw [h2] at h
      simp only [] at h
      cases h3 : exceptMap buildPreviewRecord (findAllNodes s isArticleItem) with
      | error e => rw [h3] at h; simp at h
      | ok posts =>
        rw [h3] at h
        simp only [] at h
        by_cases h4 : posts.isEmpty
        · rw [if_pos h4] at h; simp at h
        · rw [if_neg h4] at h
          simp at h
          subst h
          intro r hr
          obtain ⟨r0, hr0, hmap⟩ := List.mem_map.mp hr
          obtain ⟨item, _, hitem⟩ := forall₂_mem_right
            (exceptMap_ok_forall₂ buildPreviewRecord _ posts h3) r0 hr0
          obtain ⟨u, t, a, d, hshape⟩ := buildPreviewRecord_ok_shape item r0 hitem
          subst hshape
          rw [← hmap, setItem_date_four]
          exact ⟨u, t, a, to_datetime (valueAt
            [("url", u), ("title", Value.str t), ("author", a), ("date", d)] "date"), rfl⟩

theorem collect_listings_ok_shape (root_url : String)
    (fetch : String → Option (List Nat)) (parse : List Nat → Soup) (fuel : Nat)
    (records : List Row)
    (h : collect_listings root_url fetch parse fuel = .ok records) :
    ∀ r ∈ records, ∃ u t a d,
      r = [("url", u), ("title", Value.str t), ("author", a), ("date", d)] := by
  unfold collect_listings at h
  cases h1 : exceptMap (fun s => parse_link [("soup", Value.soup s)])
      (page_generator root_url fetch parse fuel) with
  | error e => rw [h1] at h; simp at h
  | ok dfs =>
    rw [h1] at h
    simp only [] at h
    by_cases h2 : dfs.isEmpty
    · rw [if_pos h2] at h; simp at h
    · rw [if_neg h2] at h
      simp at h
      subst h
      intro r hr
      obtain ⟨df, hdf, hrdf⟩ := List.mem_flatten.mp hr
      obtain ⟨s, _, hs⟩ := forall₂_mem_right
        (exceptMap_ok_forall₂ _ _ dfs h1) df hdf
      exact parse_link_ok_shape _ df hs r hrdf

theorem expectSoup_ok (v : Value) (s : Soup) (h : expectSoup v = .ok s) :
    v = .soup s := by
  cases v with
  | soup s0 => simp [expectSoup] at h; rw [h]
  | str s0 => simp [expectSoup] at h
  | datetime s0 => simp [expectSoup] at h
  | bytes b => simp [expectSoup] at h
  | null => simp [expectSoup] at h

theorem parse_post_ok_shape (row : Row) (r' : Row) (h : parse_post row = .ok r') :
    ∃ s article, List.lookup "soup" row = some (Value.soup s) ∧
      findNode s isArticleBody = some article ∧
      r' = setItem (setItem row "post" (.str (Node.prettify article)))
        "post_markdown" (.str (markdownify article)) := by
  unfold parse_post at h
  cases h1 : getItem row "soup" with
  | error e => rw [h1] at h; simp at h
  | ok v =>
    rw [h1] at h
    simp only [] at h
    cases h2 : expectSoup v with
    | error e => rw [h2] at h; simp at h
    | ok s =>
      rw [h2] at h
      simp only [] at h
      cases h3 : findNode s isArticleBody with
      | none => rw [h3] at h; simp at h
      | some article =>
        rw [h3] at h
        simp only [] at h
        simp at h
        refine ⟨s, article, ?_, h3, h.symm⟩
        have hv := expectSoup_ok v s h2
        subst hv
        unfold getItem at h1
        cases hl : List.lookup "soup" row with
        | none => rw [hl] at h1; simp at h1
        | some w => rw [hl] at h1; simp at h1; rw [h1]

theorem fetch_posts_ok (fetch : String → Option (List Nat)) :
    ∀ (rs rows : List Row) (trace : List String),
      fetch_posts fetch rs = .ok (rows, trace) →
      List.Forall₂ (fun r r' => ∃ u b, valueAt r "url" = .str u ∧
        fetch u = some b ∧ r' = setItem r "html" (.bytes b)) rs rows ∧
      List.Forall₂ (fun r u => valueAt r "url" = .str u) rs trace := by
  intro rs
  induction rs with
  | nil =>
    intro rows trace h
    simp [fetch_posts] at h
    obtain ⟨h1, h2⟩ := h
    subst h1
    subst h2
    exact ⟨List.Forall₂.nil, List.Forall₂.nil⟩
  | cons r rest ih =>
    intro rows trace h
    unfold fetch_posts at h
    cases h1 : valueAt r "url" with
    | str u =>
      rw [h1] at h
      simp only [] at h
      cases h2 : fetch u with
      | none => rw [h2] at h; simp at h
      | some b =>
        rw [h2] at h
        simp only [] at h
        cases h3 : fetch_posts fetch rest with
        | error e => rw [h3] at h; simp at h
        | ok p =>
          obtain ⟨rs', trace'⟩ := p
          rw [h3] at h
          simp only [] at h
          simp at h
          obtain ⟨hrows, htrace⟩ := h
          obtain ⟨ihr, iht⟩ := ih rs' trace' h3
          constructor
          · rw [← hrows]
            exact List.Forall₂.cons ⟨u, b, h1, h2, rfl⟩ ihr
          · rw [← htrace]
            exact List.Forall₂.cons h1 iht
    | datetime s => rw [h1] at h; simp at h
    | bytes b => rw [h1] at h; simp at h
    | soup s => rw [h1] at h; simp at h
    | null => rw [h1] at h; simp at h

theorem add_soups_ok (parse : List Nat → Soup) (rs rows : List Row)
    (h : add_soups parse rs = .ok rows) :
    List.Forall₂ (fun r r' => ∃ b, valueAt r "html" = .bytes b ∧
      r' = setItem r "soup" (.soup (parse b))) rs rows := by
  have h2 := exceptMap_ok_forall₂ _ rs rows h
  refine List.Forall₂.imp ?_ h2
  intro r r' hr
  cases hv : valueAt r "html" with
  | bytes b =>
    rw [hv] at hr
    simp only [] at hr
    simp at hr
    exact ⟨b, rfl, hr.symm⟩
  | str s => rw [hv] at hr; simp at hr
  | datetime s => rw [hv] at hr; simp at hr
  | soup s => rw [hv] at hr; simp at hr
  | null => rw [hv] at hr; simp at hr

theorem main_ok_inversion (root_url : String) (fetch : String → Option (List Nat))
    (parse : List Nat → Soup) (fuel : Nat) (out : Output)
    (h : main root_url fetch parse fuel = .ok out) :
    ∃ records withHtml trace withSoup,
      collect_listings root_url fetch parse fuel = .ok records ∧
      fetch_posts fetch records = .ok (withHtml, trace) ∧
      add_soups parse withHtml = .ok withSoup ∧
      exceptMap parse_post withSoup = .ok out.rows ∧
      out.path = "_posts/posts.csv.gz" := by
  unfold main at h
  cases h1 : collect_listings root_url fetch parse fuel with
  | error e => rw [h1] at h; simp at h
  | ok records =>
    rw [h1] at h
    simp only [] at h
    cases h2 : fetch_posts fetch records with
    | error e => rw [h2] at h; simp at h
    | ok p =>
      obtain ⟨withHtml, trace⟩ := p
      rw [h2] at h
      simp only [] at h
      cases h3 : add_soups parse withHtml with
      | error e => rw [h3] at h; simp at h
      | ok withSoup =>
        rw [h3] at h
        simp only [] at h
        cases h4 : exceptMap parse_post withSoup with
        | error e => rw [h4] at h; simp at h
        | ok enriched =>
          rw [h4] at h
          simp only [] at h
          injection h with h
          refine ⟨records, withHtml, trace, withSoup, rfl, h2, h3, ?_, ?_⟩
          · rw [← h]
            exact h4
          · rw [← h]

theorem forall₂_mem_left {α β : Type} {R : α → β → Prop} :
    ∀ {l : List α} {l' : List β}, List.Forall₂ R l l' →
      ∀ x ∈ l, ∃ y ∈ l', R x y := by
  intro l l' h
  induction h with
  | nil => intro x hx; simp at hx
  | cons hr _ ih =>
    intro x hx
    rcases List.mem_cons.mp hx with h1 | h2
    · exact ⟨_, by simp, h1 ▸ hr⟩
    · obtain ⟨y, hy, hxy⟩ := ih x h2
      exact ⟨y, by simp [hy], hxy⟩

theorem parse_post_preserves_lookup (k : String) (hk1 : k ≠ "post")
    (hk2 : k ≠ "post_markdown") (row r' : Row) (h : parse_post row = .ok r') :
    List.lookup k r' = List.lookup k row := by
  obtain ⟨s, article, _, _, hshape⟩ := parse_post_ok_shape row r' h
  rw [hshape, lookup_setItem_ne _ _ (Ne.symm hk2), lookup_setItem_ne _ _ (Ne.symm hk1)]

theorem buildPreviewRecord_valid (item : Node) (h : validPreview item = true) :
    ∃ u t a d,
      buildPreviewRecord item =
        .ok [("url", Value.str u), ("title", Value.str t), ("author", a), ("date", d)] ∧
      u ≠ "" ∧ t ≠ "" := by
  unfold validPreview at h
  cases h1 : Node.findIn item isTitolo with
  | none => rw [h1] at h; simp at h
  | some h1n =>
    rw [h1] at h
    simp only [] at h
    simp only [Bool.and_eq_true] at h
    obtain ⟨⟨⟨hu, ht⟩, ha⟩, hd⟩ := h
    cases h2 : Node.findIn h1n (fun n => matchesTag n "a") with
    | none => rw [h2] at hu; simp at hu
    | some a =>
      rw [h2] at hu
      simp only [] at hu
      cases h3 : Node.attr a "href" with
      | none => rw [h3] at hu; simp at hu
      | some u =>
        rw [h3] at hu
        cases h4 : Node.findIn item (isMetaProp "author") with
        | none => rw [h4] at ha; simp at ha
        | some am =>
          cases h5 : Node.findIn item (isMetaProp "datePublished") with
          | none => rw [h5] at hd; simp at hd
          | some dm =>
            refine ⟨u, trimChars (Node.textContent h1n),
              optValue (Node.attr am "content"), optValue (Node.attr dm "content"),
              ?_, ?_, ?_⟩
            · unfold buildPreviewRecord
              rw [h1]
              simp only []
              rw [h2]
              simp only []
              rw [h4]
              simp only []
              rw [h5]
              simp only []
              rw [h3]
              rfl
            · simpa using hu
            · simpa using ht

/-! ## Claim theorems -/

/-- C3 (counterexample): the claim "when the k-th page is the first with no
further content, `page_generator` yields exactly k pages" fails at k = 1:
with a fetch layer whose first page is empty, page 1 is the first page with
no further content, yet the generator yields 0 pages, not 1. -/
theorem page_generator_first_stop_counterexample :
    pgStop demoRoot emptyFirstFetch demoParse 1 = true ∧
    (page_generator demoRoot emptyFirstFetch demoParse 5).length = 0 ∧
    (page_generator demoRoot emptyFirstFetch demoParse 5).length ≠ 1 := by
  refine ⟨rfl, rfl, by decide⟩

/-- C3 (amended): when the k-th page is the first meeting a stop condition
(fetch failure, empty content, or degenerate single-tag page),
`page_generator` yields exactly k − 1 pages — the pages strictly before the
stop; the stopping page itself is not yielded. -/
theorem page_generator_yields_pred_of_first_stop (root_url : String)
    (fetch : String → Option (List Nat)) (parse : List Nat → Soup)
    (k fuel : Nat) (hk : 1 ≤ k)
    (hstop : pgStop root_url fetch parse k = true)
    (hno : ∀ j, 1 ≤ j → j < k → pgStop root_url fetch parse j = false)
    (hfuel : k ≤ fuel) :
    (page_generator root_url fetch parse fuel).length = k - 1 := by
  unfold page_generator
  rw [pgAux_expected root_url fetch parse k hstop fuel 1 hk hno (by omega)]
  rw [expectedPages_length]

/-- Witness for the amended C3: in the fixture blog, page 2 is the first
empty page and the generator yields exactly one page. -/
theorem page_generator_yields_pred_of_first_stop_witness :
    (page_generator demoRoot demoFetch demoParse 6).length = 2 - 1 :=
  page_generator_yields_pred_of_first_stop demoRoot demoFetch demoParse 2 6
    (by decide) rfl
    (by
      intro j h1 h2
      have hj : j = 1 := by omega
      subst hj
      rfl)
    (by decide)

/-- C4 (confirmed): a fetch failure at page k during pagination silently
terminates the sequence — `page_generator` is a total function into a page
list (the caught `RequestException` never reaches the caller) — and the
pages yielded before the failure are exactly the parses of pages 1..k−1,
unaffected by the failure. -/
theorem page_generator_failure_truncates (root_url : String)
    (fetch : String → Option (List Nat)) (parse : List Nat → Soup)
    (k fuel : Nat) (hk : 1 ≤ k)
    (hfail : fetch (page_url root_url k) = none)
    (hno : ∀ j, 1 ≤ j → j < k → pgStop root_url fetch parse j = false)
    (hfuel : k ≤ fuel) :
    page_generator root_url fetch parse fuel =
      expectedPages root_url fetch parse 1 (k - 1) := by
  have hstop : pgStop root_url fetch parse k = true := by
    unfold pgStop
    rw [hfail]
  unfold page_generator
  exact pgAux_expected root_url fetch parse k hstop fuel 1 hk hno (by omega)

/-- Witness for C4: with the fetch of page 2 raising, the generator returns
exactly the one page fetched before the failure. -/
theorem page_generator_failure_truncates_witness :
    page_generator demoRoot failingSecondFetch demoParse 6 =
      expectedPages demoRoot failingSecondFetch demoParse 1 (2 - 1) :=
  page_generator_failure_truncates demoRoot failingSecondFetch demoParse 2 6
    (by decide) rfl
    (by
      intro j h1 h2
      have hj : j = 1 := by omega
      subst hj
      rfl)
    (by decide)

/-- C9 (counterexample): `page_generator` does not always terminate.  With a
fetch layer that answers every page with a non-empty, non-degenerate listing
page, the loop yields one page per unit of fuel, for every fuel: the yielded
sequence is unbounded, so the generator never terminates on its own. -/
theorem page_generator_nonterminating_counterexample :
    pgRunsForever demoRoot alwaysGoodFetch demoParse := by
  intro fuel
  unfold page_generator
  exact pgAux_no_stop demoRoot alwaysGoodFetch demoParse (fun j => rfl) fuel 1

/-- C9 (amended): `page_generator` yields a finite sequence exactly when some
page meets a stop condition: if page k stops (fetch failure, empty content or
single-tag page), the yielded list is independent of any fuel ≥ k and has
fewer than k elements. -/
theorem page_generator_finite_of_stop (root_url : String)
    (fetch : String → Option (List Nat)) (parse : List Nat → Soup)
    (k : Nat) (hk : 1 ≤ k)
    (hstop : pgStop root_url fetch parse k = true) :
    ∀ fuel₁ fuel₂, k ≤ fuel₁ → k ≤ fuel₂ →
      page_generator root_url fetch parse fuel₁ =
        page_generator root_url fetch parse fuel₂ ∧
      (page_generator root_url fetch parse fuel₁).length ≤ k - 1 := by
  intro fuel₁ fuel₂ h1 h2
  constructor
  · exact pgAux_stable root_url fetch parse k hstop fuel₁ fuel₂ 1 hk
      (by omega) (by omega)
  · have h3 := pgAux_length_le root_url fetch parse k hstop fuel₁ 1 hk
    unfold page_generator
    omega

/-- Witness for the amended C9: the fixture blog stops at page 2 and the
yielded sequence is stable and short. -/
theorem page_generator_finite_of_stop_witness :
    page_generator demoRoot demoFetch demoParse 6 =
      page_generator demoRoot demoFetch demoParse 17 ∧
    (page_generator demoRoot demoFetch demoParse 6).length ≤ 2 - 1 :=
  page_generator_finite_of_stop demoRoot demoFetch demoParse 2 (by decide) rfl
    6 17 (by decide) (by decide)


/-- C5 (confirmed): on a post document with no `div[itemprop=articleBody]`
container, `parse_post` fails with the extraction error (the `AttributeError`
raised by `article.prettify()` on `None`, the spec's ExtractionError) as an
`Except.error` that the caller receives; `parse_post` never returns a record
whose `post` body is empty; and a row-wise map over `parse_post` can only
succeed when every single row extracted successfully, so the error is
propagated, never skipped. -/
theorem parse_post_missing_body_raises (row : Row) (s : Soup)
    (hs : List.lookup "soup" row = some (Value.soup s))
    (hnone : findNode s isArticleBody = none) :
    parse_post row = .error .attributeError ∧
    (∀ r r', parse_post r = .ok r' →
      ∃ p, List.lookup "post" r' = some (Value.str p) ∧ p ≠ "") ∧
    (∀ rows enriched, exceptMap parse_post rows = .ok enriched →
      ∀ r ∈ rows, ∃ r', parse_post r = .ok r') := by
  refine ⟨?_, ?_, ?_⟩
  · unfold parse_post
    rw [show getItem row "soup" = .ok (Value.soup s) by
      unfold getItem
      rw [hs]]
    simp only []
    rw [show expectSoup (Value.soup s) = .ok s from rfl]
    simp only []
    rw [hnone]
  · intro r r' hok
    obtain ⟨s2, article, _, hfind, hshape⟩ := parse_post_ok_shape r r' hok
    have hpred := findNode_some_pred s2 isArticleBody article hfind
    obtain ⟨as, cs, harticle⟩ := isArticleBody_tag article hpred
    refine ⟨Node.prettify article, ?_, ?_⟩
    · rw [hshape, lookup_setItem_ne _ _ (by decide)]
      exact lookup_setItem_self _ _ _
    · rw [harticle]
      exact prettify_tag_nonempty _ _ _
  · intro rows enriched hmap r hr
    obtain ⟨r', _, hr'⟩ := forall₂_mem_left
      (exceptMap_ok_forall₂ parse_post rows enriched hmap) r hr
    exact ⟨r', hr'⟩

/-- Witness for C5: a post page without the article-body container makes
`parse_post` raise. -/
theorem parse_post_missing_body_raises_witness :
    parse_post [("soup", Value.soup noBodySoup)] = .error .attributeError ∧
    (∀ r r', parse_post r = .ok r' →
      ∃ p, List.lookup "post" r' = some (Value.str p) ∧ p ≠ "") ∧
    (∀ rows enriched, exceptMap parse_post rows = .ok enriched →
      ∀ r ∈ rows, ∃ r', parse_post r = .ok r') :=
  parse_post_missing_body_raises [("soup", Value.soup noBodySoup)] noBodySoup
    rfl rfl

/-- C6 (counterexample): `parse_post` does not remove an embedded share
sub-widget.  On a post whose article body contains nothing but a share
widget with text "CONDIVIDI", the produced Markdown is exactly "CONDIVIDI" —
text exclusively contained in the sub-widget appears in the output, which the
claim says must be excluded. -/
theorem parse_post_share_text_appears :
    parse_post shareOnlyRow =
      .ok [("soup", Value.soup (nl1 shareOnlyArticle)),
        ("post", Value.str
          "<div itemprop=\x22articleBody\x22><div class=\x22share\x22>CONDIVIDI</div></div>"),
        ("post_markdown", Value.str "CONDIVIDI")] ∧
    "CONDIVIDI" ≠ "" := by
  refine ⟨rfl, by decide⟩

/-- C6 (amended): `parse_post` performs no removal at all: it converts the
entire article body, share sub-widgets included, so the Markdown output is
the text content of the whole body container. -/
theorem parse_post_converts_entire_body (row : Row) (s : Soup) (article : Node)
    (hs : List.lookup "soup" row = some (Value.soup s))
    (hfind : findNode s isArticleBody = some article) :
    parse_post row =
      .ok (setItem (setItem row "post" (Value.str (Node.prettify article)))
        "post_markdown" (Value.str (Node.textContent article))) ∧
    List.lookup "post_markdown"
        (setItem (setItem row "post" (Value.str (Node.prettify article)))
          "post_markdown" (Value.str (Node.textContent article))) =
      some (Value.str (Node.textContent article)) := by
  constructor
  · unfold parse_post
    rw [show getItem row "soup" = .ok (Value.soup s) by
      unfold getItem
      rw [hs]]
    simp only []
    rw [show expectSoup (Value.soup s) = .ok s from rfl]
    simp only []
    rw [hfind]
    rfl
  · exact lookup_setItem_self _ _ _

/-- Witness for the amended C6: on the fixture post, whose body holds a
paragraph and a share widget, the Markdown keeps the widget's text. -/
theorem parse_post_converts_entire_body_witness :
    parse_post [("soup", Value.soup demoPost)] =
      .ok (setItem (setItem [("soup", Value.soup demoPost)] "post"
          (Value.str (Node.prettify demoArticle)))
        "post_markdown" (Value.str (Node.textContent demoArticle))) ∧
    List.lookup "post_markdown"
        (setItem (setItem [("soup", Value.soup demoPost)] "post"
          (Value.str (Node.prettify demoArticle)))
          "post_markdown" (Value.str (Node.textContent demoArticle))) =
      some (Value.str (Node.textContent demoArticle)) :=
  parse_post_converts_entire_body [("soup", Value.soup demoPost)] demoPost
    demoArticle rfl rfl

/-- C10 (confirmed): on a record holding a parsed post document that contains
an article-body container, when the `post` and `post_markdown` columns are
not yet present (as on every pipeline row), `parse_post` returns the input
row unchanged with exactly the two columns `post` and `post_markdown`
appended at the end. -/
theorem parse_post_appends_exactly_two_fields (row : Row) (s : Soup)
    (article : Node)
    (hs : List.lookup "soup" row = some (Value.soup s))
    (hfind : findNode s isArticleBody = some article)
    (hp : "post" ∉ keys row) (hpm : "post_markdown" ∉ keys row) :
    parse_post row =
      .ok (row ++ [("post", Value.str (Node.prettify article)),
        ("post_markdown", Value.str (markdownify article))]) := by
  unfold parse_post
  rw [show getItem row "soup" = .ok (Value.soup s) by
    unfold getItem
    rw [hs]]
  simp only []
  rw [show expectSoup (Value.soup s) = .ok s from rfl]
  simp only []
  rw [hfind]
  simp only []
  rw [setItem_not_mem row _ hp]
  have hpm2 : "post_markdown" ∉
      keys (row ++ [("post", Value.str (Node.prettify article))]) := by
    unfold keys
    rw [List.map_append]
    intro hmem
    rcases List.mem_append.mp hmem with hmem | hmem
    · exact hpm hmem
    · simp at hmem
  rw [setItem_not_mem _ _ hpm2, List.append_assoc]
  rfl

/-- Witness for C10: on a concrete two-column row the enrichment appends
exactly `post` and `post_markdown` and leaves the row's prefix intact. -/
theorem parse_post_appends_exactly_two_fields_witness :
    parse_post [("url", Value.str "https://post1"), ("soup", Value.soup demoPost)] =
      .ok ([("url", Value.str "https://post1"), ("soup", Value.soup demoPost)] ++
        [("post", Value.str (Node.prettify demoArticle)),
          ("post_markdown", Value.str (markdownify demoArticle))]) :=
  parse_post_appends_exactly_two_fields
    [("url", Value.str "https://post1"), ("soup", Value.soup demoPost)]
    demoPost demoArticle rfl rfl (by decide) (by decide)


/-- C2 (counterexample): `parse_link` does not fail loudly on every listing
item missing a required field, and does not return N records on every page
with N valid items.  First conjunct: an item whose title anchor exists but
has no `href` attribute is extracted silently into a partial record with a
null `url` (no error).  Second conjunct: a listing page containing zero
preview items fails with `KeyError` (reading the `date` column of a
column-less frame) instead of returning 0 records. -/
theorem parse_link_silent_partial_record :
    parse_link [("soup", Value.soup (nl1 hreflessItem))] =
      .ok [[("url", Value.null), ("title", Value.str "Title One"),
        ("author", Value.str "A"), ("date", Value.datetime "2020-01-12")]] ∧
    parse_link [("soup", Value.soup NodeList.nil)] = .error .keyError := by
  refine ⟨rfl, rfl⟩

/-- C2 (amended): on a listing page with N ≥ 1 preview items that are all
valid — title element with a non-empty hyperlink URL and non-empty text, and
meta tags carrying content — `parse_link` returns exactly N records, each
with a non-empty `url` and a non-empty `title`.  An item missing a required
element fails loudly (`AttributeError`), but an item whose anchor or meta tag
merely lacks the `href`/`content` attribute yields a partial record silently,
and a page with zero items raises `KeyError`. -/
theorem parse_link_valid_records (s : Soup)
    (hne : findAllNodes s isArticleItem ≠ [])
    (hval : ∀ item ∈ findAllNodes s isArticleItem, validPreview item = true) :
    ∃ records, parse_link [("soup", Value.soup s)] = .ok records ∧
      records.length = (findAllNodes s isArticleItem).length ∧
      ∀ r ∈ records,
        (∃ u, List.lookup "url" r = some (Value.str u) ∧ u ≠ "") ∧
        (∃ t, List.lookup "title" r = some (Value.str t) ∧ t ≠ "") := by
  obtain ⟨posts, hposts⟩ := exceptMap_ok_of_forall buildPreviewRecord _
    (fun item hitem => by
      obtain ⟨u, t, a, d, hok, _, _⟩ :=
        buildPreviewRecord_valid item (hval item hitem)
      exact ⟨_, hok⟩)
  have hf2 := exceptMap_ok_forall₂ buildPreviewRecord _ posts hposts
  have hlen := List.Forall₂.length_eq hf2
  have hpne : posts ≠ [] := by
    intro h0
    apply hne
    rw [h0] at hlen
    simpa using List.length_eq_zero.mp (by simpa using hlen)
  refine ⟨posts.map (fun r => setItem r "date" (to_datetime (valueAt r "date"))),
    ?_, ?_, ?_⟩
  · unfold parse_link
    rw [show getItem [("soup", Value.soup s)] "soup" = .ok (Value.soup s) from rfl]
    simp only []
    rw [show expectSoup (Value.soup s) = .ok s from rfl]
    simp only []
    rw [hposts]
    simp only []
    rw [if_neg (by simp [List.isEmpty_iff, hpne])]
  · simp [← hlen]
  · intro r hr
    obtain ⟨r0, hr0, hmap⟩ := List.mem_map.mp hr
    obtain ⟨item, hitemmem, hitem⟩ := forall₂_mem_right hf2 r0 hr0
    obtain ⟨u, t, a, d, hok, hu, ht⟩ :=
      buildPreviewRecord_valid item (hval item hitemmem)
    rw [hitem] at hok
    have hr0eq : r0 = [("url", Value.str u), ("title", Value.str t),
        ("author", a), ("date", d)] := by
      injection hok
    subst hr0eq
    rw [← hmap, setItem_date_four]
    constructor
    · exact ⟨u, rfl, hu⟩
    · exact ⟨t, rfl, ht⟩

/-- Witness for the amended C2: the fixture listing page has one valid item
and yields one complete record. -/
theorem parse_link_valid_records_witness :
    ∃ records, parse_link [("soup", Value.soup demoListing)] = .ok records ∧
      records.length = (findAllNodes demoListing isArticleItem).length ∧
      ∀ r ∈ records,
        (∃ u, List.lookup "url" r = some (Value.str u) ∧ u ≠ "") ∧
        (∃ t, List.lookup "title" r = some (Value.str t) ∧ t ≠ "") :=
  parse_link_valid_records demoListing
    (by
      rw [show findAllNodes demoListing isArticleItem = [demoItem] from rfl]
      simp)
    (by
      intro item hitem
      have : findAllNodes demoListing isArticleItem = [demoItem] := rfl
      rw [this] at hitem
      simp at hitem
      rw [hitem]
      rfl)


/-- C1 (confirmed): on every successful run, the persisted rows' `url`
column is exactly, position by position, the `url` column of the records
discovered during pagination (phase 1): each persisted row originates from
exactly one discovered record, none is fabricated and none is dropped. -/
theorem main_output_urls_originate_from_pagination (root_url : String)
    (fetch : String → Option (List Nat)) (parse : List Nat → Soup) (fuel : Nat)
    (out : Output) (h : main root_url fetch parse fuel = .ok out) :
    ∃ records, collect_listings root_url fetch parse fuel = .ok records ∧
      out.rows.map (fun r => List.lookup "url" r) =
        records.map (fun r => List.lookup "url" r) := by
  obtain ⟨records, withHtml, trace, withSoup, h1, h2, h3, h4, _⟩ :=
    main_ok_inversion root_url fetch parse fuel out h
  refine ⟨records, h1, ?_⟩
  have e1 : withHtml.map (fun r => List.lookup "url" r) =
      records.map (fun r => List.lookup "url" r) := by
    apply forall₂_map_eq
    refine List.Forall₂.imp ?_ (fetch_posts_ok fetch records withHtml trace h2).1
    rintro r r' ⟨u, b, _, _, hset⟩
    rw [hset]
    exact lookup_setItem_ne r _ (by decide)
  have e2 : withSoup.map (fun r => List.lookup "url" r) =
      withHtml.map (fun r => List.lookup "url" r) := by
    apply forall₂_map_eq
    refine List.Forall₂.imp ?_ (add_soups_ok parse withHtml withSoup h3)
    rintro r r' ⟨b, _, hset⟩
    rw [hset]
    exact lookup_setItem_ne r _ (by decide)
  have e3 : out.rows.map (fun r => List.lookup "url" r) =
      withSoup.map (fun r => List.lookup "url" r) := by
    apply forall₂_map_eq
    refine List.Forall₂.imp ?_ (exceptMap_ok_forall₂ parse_post withSoup out.rows h4)
    intro r r' hok
    exact parse_post_preserves_lookup "url" (by decide) (by decide) r r' hok
  rw [e3, e2, e1]

/-- Witness for C1: on the fixture run the persisted `url` column equals the
discovered one. -/
theorem main_output_urls_originate_from_pagination_witness :
    ∃ records, collect_listings demoRoot demoFetch demoParse 6 = .ok records ∧
      demoOut.rows.map (fun r => List.lookup "url" r) =
        records.map (fun r => List.lookup "url" r) :=
  main_output_urls_originate_from_pagination demoRoot demoFetch demoParse 6
    demoOut rfl

/-- C7 (confirmed): in phase 2 exactly one fetch is performed per discovered
record, in order — on success the trace of requested URLs corresponds
one-to-one to the discovered records' `url` fields — and any fetch failure
aborts the whole run: `main` returns that error and produces no output. -/
theorem main_one_fetch_per_record_abort_on_failure (root_url : String)
    (fetch : String → Option (List Nat)) (parse : List Nat → Soup) (fuel : Nat)
    (records : List Row)
    (hc : collect_listings root_url fetch parse fuel = .ok records) :
    (∀ rows trace, fetch_posts fetch records = .ok (rows, trace) →
      List.Forall₂ (fun (r : Row) (u : String) =>
        List.lookup "url" r = some (Value.str u)) records trace) ∧
    (∀ e, fetch_posts fetch records = .error e →
      main root_url fetch parse fuel = .error e) := by
  constructor
  · intro rows trace h
    refine List.Forall₂.imp ?_ (fetch_posts_ok fetch records rows trace h).2
    intro r u hu
    unfold valueAt at hu
    cases hl : List.lookup "url" r with
    | none => rw [hl] at hu; simp at hu
    | some v =>
      rw [hl] at hu
      simp at hu
      rw [hu]
  · intro e he
    unfold main
    rw [hc]
    simp only []
    rw [he]

/-- Witness for C7: instantiated on the fixture run's discovered records. -/
theorem main_one_fetch_per_record_abort_on_failure_witness :
    (∀ rows trace, fetch_posts demoFetch demoRecords = .ok (rows, trace) →
      List.Forall₂ (fun (r : Row) (u : String) =>
        List.lookup "url" r = some (Value.str u)) demoRecords trace) ∧
    (∀ e, fetch_posts demoFetch demoRecords = .error e →
      main demoRoot demoFetch demoParse 6 = .error e) :=
  main_one_fetch_per_record_abort_on_failure demoRoot demoFetch demoParse 6
    demoRecords rfl

/-- C8 (counterexample): the output table's columns are not exactly
`url`, `title`, author/date fields, `post` and `post_markdown`: a successful
fixture run writes rows whose columns also include the intermediate `html`
(raw fetched page bytes) and `soup` (parsed document) columns. -/
theorem main_output_extra_columns_counterexample :
    outputColumns demoMain =
      [["url", "title", "author", "date", "html", "soup", "post", "post_markdown"]] ∧
    "html" ∉ ["url", "title", "author", "date", "post", "post_markdown"] ∧
    "soup" ∉ ["url", "title", "author", "date", "post", "post_markdown"] := by
  refine ⟨rfl, by decide, by decide⟩

/-- C8 (amended): on successful completion the pipeline writes the table at
the fixed relative path `_posts/posts.csv.gz` (compression implied by the
`.gz` suffix), with exactly one row per enriched record — as many rows as
records discovered in phase 1 — and each row's columns are exactly `url`,
`title`, `author`, `date`, `html`, `soup`, `post`, `post_markdown`: the
record fields and the conversion columns, plus the intermediate `html` and
`soup` columns. -/
theorem main_output_fixed_path_and_columns (root_url : String)
    (fetch : String → Option (List Nat)) (parse : List Nat → Soup) (fuel : Nat)
    (out : Output) (h : main root_url fetch parse fuel = .ok out) :
    out.path = "_posts/posts.csv.gz" ∧
    (∃ records, collect_listings root_url fetch parse fuel = .ok records ∧
      out.rows.length = records.length) ∧
    ∀ r ∈ out.rows, keys r =
      ["url", "title", "author", "date", "html", "soup", "post", "post_markdown"] := by
  obtain ⟨records, withHtml, trace, withSoup, h1, h2, h3, h4, h5⟩ :=
    main_ok_inversion root_url fetch parse fuel out h
  have f1 := (fetch_posts_ok fetch records withHtml trace h2).1
  have f2 := add_soups_ok parse withHtml withSoup h3
  have f3 := exceptMap_ok_forall₂ parse_post withSoup out.rows h4
  refine ⟨h5, ⟨records, h1, ?_⟩, ?_⟩
  · have l1 := List.Forall₂.length_eq f1
    have l2 := List.Forall₂.length_eq f2
    have l3 := List.Forall₂.length_eq f3
    omega
  · intro r hr
    obtain ⟨r2, hr2, hpp⟩ := forall₂_mem_right f3 r hr
    obtain ⟨s2, article, _, _, hshape⟩ := parse_post_ok_shape r2 r hpp
    obtain ⟨r1, hr1, b2, _, hset2⟩ := forall₂_mem_right f2 r2 hr2
    obtain ⟨r0, hr0, u, b, _, _, hset1⟩ := forall₂_mem_right f1 r1 hr1
    obtain ⟨u0, t0, a0, d0, hshape0⟩ :=
      collect_listings_ok_shape root_url fetch parse fuel records h1 r0 hr0
    have k0 : keys r0 = ["url", "title", "author", "date"] := by
      rw [hshape0]
      rfl
    have k1 : keys r1 = ["url", "title", "author", "date", "html"] := by
      rw [hset1, keys_setItem_not_mem _ _ (by rw [k0]; decide), k0]
      rfl
    have k2 : keys r2 = ["url", "title", "author", "date", "html", "soup"] := by
      rw [hset2, keys_setItem_not_mem _ _ (by rw [k1]; decide), k1]
      rfl
    have kin : keys (setItem r2 "post" (Value.str (Node.prettify article))) =
        ["url", "title", "author", "date", "html", "soup", "post"] := by
      rw [keys_setItem_not_mem _ _ (by rw [k2]; decide), k2]
      rfl
    rw [hshape, keys_setItem_not_mem _ _ (by rw [kin]; decide), kin]
    rfl

/-- Witness for the amended C8: the fixture run writes one row with the
eight columns at the fixed path. -/
theorem main_output_fixed_path_and_columns_witness :
    demoOut.path = "_posts/posts.csv.gz" ∧
    (∃ records, collect_listings demoRoot demoFetch demoParse 6 = .ok records ∧
      demoOut.rows.length = records.length) ∧
    ∀ r ∈ demoOut.rows, keys r =
      ["url", "title", "author", "date", "html", "soup", "post", "post_markdown"] :=
  main_output_fixed_path_and_columns demoRoot demoFetch demoParse 6 demoOut rfl

end IlPedante







